import Mathlib

/-!
Verification of the data-cleaning and profiling core of `src/app.py`
(`clean_data`, `get_dataset_summary`, `load_data`).

The pandas `DataFrame` is shallowly embedded column-major: a `Df` is a list
of columns, each holding a name, a storage dtype and a list of cell values.
Numeric cell values are modelled as exact rationals (none of the verified
properties depends on binary floating-point rounding). Timestamps are
modelled as integers whose ordering agrees with chronological ordering.
Operations that can raise a Python exception are modelled in `Except`.
-/

deriving instance DecidableEq for Except

namespace LLMKpiDash

/-- A cell of the table: number, string, boolean, timestamp, or the
distinguished missing-marker (pandas `NaN` / `NaT`). -/
inductive Cell where
  | num (q : ℚ)
  | str (s : String)
  | bool (b : Bool)
  | timestamp (t : ℤ)
  | missing
deriving DecidableEq, Repr

/-- The pandas storage dtype of a column, as branched on by `clean_data`:
`object` (textual), `boolDT` (`bool`), `numeric` (`int64`/`float64`),
`category`, `datetime` (`datetime64`). -/
inductive Dtype where
  | object
  | boolDT
  | numeric
  | category
  | datetime
deriving DecidableEq, Repr

/-- One column of a dataframe: its name, dtype and cell values. -/
structure Col where
  name : String
  dtype : Dtype
  values : List Cell
deriving DecidableEq, Repr

/-- A dataframe, column-major. -/
structure Df where
  cols : List Col
deriving DecidableEq, Repr

/-- Python exceptions that the modelled code can raise
(`ZeroDivisionError` from `nunique()/len(df)`, `KeyError: 0` from
`mode()[0]` on an empty column, and parser failures from
`pd.read_csv`/`pd.read_excel`). -/
inductive AppError where
  | zeroDivision
  | keyError
  | parseError (msg : String)
deriving DecidableEq, Repr

/-- `str(e)` for the modelled exceptions, as interpolated into
`f"Error loading file: {e}"`. -/
def AppError.message : AppError → String
  | .zeroDivision => "division by zero"
  | .keyError => "0"
  | .parseError m => m

/-- The rational with value the integer `t`. -/
def ratOfInt (t : ℤ) : ℚ := ⟨t, 1, Nat.one_ne_zero, t.natAbs.coprime_one_right⟩

/-- Division of rationals, written out through `mkRat` so that it evaluates
by kernel reduction (`ratDiv_eq` proves it is ordinary division on `ℚ`). -/
def ratDiv (a b : ℚ) : ℚ :=
  if 0 ≤ b.num then mkRat (a.num * Int.ofNat b.den) (a.den * b.num.natAbs)
  else mkRat (-(a.num * Int.ofNat b.den)) (a.den * b.num.natAbs)

/-- Addition of rationals, written out through `mkRat` so that it evaluates
by kernel reduction (`ratAdd_eq` proves it is ordinary addition on `ℚ`). -/
def ratAdd (a b : ℚ) : ℚ :=
  mkRat (a.num * Int.ofNat b.den + b.num * Int.ofNat a.den) (a.den * b.den)

/-- `len(df)`: the row count, read off the first column
(0 for a column-free frame). -/
def Df.nRows (df : Df) : Nat :=
  match df.cols with
  | [] => 0
  | c :: _ => c.values.length

/-- The rows of the frame, as lists of cells in column order. -/
def Df.rowsList (df : Df) : List (List Cell) :=
  (List.range df.nRows).map (fun i => df.cols.map (fun c => c.values.getD i Cell.missing))

/-- Keep the first occurrence of each element, preserving order
(the semantics of `drop_duplicates(keep='first')`). -/
def firstOccurrences {α : Type} [DecidableEq α] (l : List α) : List α :=
  l.foldl (fun acc a => if a ∈ acc then acc else acc ++ [a]) []

/-- Rebuild columns from a row list: column at absolute index `j` receives
the `j`-th entry of every row. -/
def rebuildCols : List Col → Nat → List (List Cell) → List Col
  | [], _, _ => []
  | c :: cs, j, rows =>
      { c with values := rows.map (fun r => r.getD j Cell.missing) } ::
        rebuildCols cs (j + 1) rows

/-- `df.drop_duplicates()`: remove rows equal to an earlier row, keeping the
first occurrence and the original order. -/
def dedupDf (df : Df) : Df :=
  ⟨rebuildCols df.cols 0 (firstOccurrences df.rowsList)⟩

/-- The numeric value of a cell, if any. -/
def cellNum : Cell → Option ℚ
  | .num q => some q
  | _ => none

/-- The boolean value of a cell, if any. -/
def cellBool : Cell → Option Bool
  | .bool b => some b
  | _ => none

/-- The timestamp value of a cell, if any. -/
def cellTS : Cell → Option ℤ
  | .timestamp t => some t
  | _ => none

/-- The value of a list of decimal digits, if it is nonempty and all-digit. -/
def digitsVal? (cs : List Char) : Option Nat :=
  if cs ≠ [] ∧ cs.all (fun c => c.isDigit) then
    some (cs.foldl (fun a c => a * 10 + (c.toNat - 48)) 0)
  else none

/-- Unsigned decimal literal: digits with an optional fractional part. -/
def parseUnsigned (cs : List Char) : Option ℚ :=
  if cs.contains '.' then
    let intPart := cs.takeWhile (fun c => c ≠ '.')
    let fracPart := (cs.dropWhile (fun c => c ≠ '.')).tail
    if fracPart.contains '.' then none
    else
      match digitsVal? intPart, digitsVal? fracPart with
      | some a, some b => some (mkRat (Int.ofNat (a * 10 ^ fracPart.length + b)) (10 ^ fracPart.length))
      | _, _ => none
  else (digitsVal? cs).map (fun n => ratOfInt (Int.ofNat n))

/-- Models the number parsing performed by `pd.to_numeric` on a string:
an optionally signed decimal literal; anything else fails to parse. -/
def parseNum (s : String) : Option ℚ :=
  match s.data with
  | '-' :: rest => (parseUnsigned rest).map (fun q => -q)
  | cs => parseUnsigned cs

/-- One cell under `pd.to_numeric(..., errors='coerce')`: numbers kept,
booleans become 1/0, timestamps their integer value, unparseable strings and
the missing-marker become the missing-marker — never an error. -/
def coerceNumeric : Cell → Cell
  | .num q => .num q
  | .str s =>
      match parseNum s with
      | some q => .num q
      | none => .missing
  | .bool b => .num (if b then 1 else 0)
  | .timestamp t => .num (ratOfInt t)
  | .missing => .missing

/-- `Series.nunique()`: the number of distinct non-missing values. -/
def uniqueCount (vs : List Cell) : Nat :=
  (firstOccurrences (vs.filter (fun v => v ≠ Cell.missing))).length

/-- The per-column body of the type-inference loop of `clean_data`
(lines 78-89): `object` columns get the unique-ratio test (raising
`ZeroDivisionError` when `len(df) = 0`) and become `category` when the ratio
is below 0.3; `bool` columns are kept as-is (`astype(bool)` is the
identity on a bool column); every other column is coerced with
`pd.to_numeric(..., errors='coerce')`. -/
def inferColumn (n : Nat) (c : Col) : Except AppError Col :=
  match c.dtype with
  | .object =>
      if n = 0 then .error .zeroDivision
      else if ratDiv (ratOfInt (Int.ofNat (uniqueCount c.values))) (ratOfInt (Int.ofNat n)) <
          mkRat 3 10 then
        .ok { c with dtype := .category }
      else .ok c
  | .boolDT => .ok c
  | _ => .ok { c with dtype := .numeric, values := c.values.map coerceNumeric }

/-- ASCII lower-casing of one character. -/
def charToLower (c : Char) : Char :=
  if 65 ≤ c.toNat ∧ c.toNat ≤ 90 then Char.ofNat (c.toNat + 32) else c

/-- `p` is a prefix of `l`. -/
def listIsPrefix : List Char → List Char → Bool
  | [], _ => true
  | _ :: _, [] => false
  | p :: ps, c :: cs => p == c && listIsPrefix ps cs

/-- `pat` occurs as a contiguous sublist of `l`. -/
def listContainsSub (l pat : List Char) : Bool :=
  (List.range (l.length + 1)).any (fun i => listIsPrefix pat (l.drop i))

/-- The name test of the datetime pass (line 93): the lower-cased column name
contains one of the five keywords. -/
def nameMatchesDatetime (name : String) : Bool :=
  ["date", "time", "year", "day", "month"].any
    (fun k => listContainsSub (name.data.map charToLower) k.data)

/-- Split a character list on a separator. -/
def splitOnChar (sep : Char) : List Char → List (List Char)
  | [] => [[]]
  | c :: cs =>
      if c = sep then [] :: splitOnChar sep cs
      else
        match splitOnChar sep cs with
        | [] => [[c]]
        | p :: ps => (c :: p) :: ps

/-- Models the date-string parsing of `pd.to_datetime`: accepts a bare
four-digit year and `YYYY-MM-DD`; anything else fails. The integer encoding
`y*10000 + m*100 + d` is monotone in chronological order, which is all the
verified properties use. -/
def parseDateStr (s : String) : Option ℤ :=
  match (splitOnChar '-' s.data).map (fun t => digitsVal? t) with
  | [some y] => if s.data.length = 4 then some (Int.ofNat (y * 10000 + 100 + 1)) else none
  | [some y, some m, some d] =>
      if 1 ≤ m ∧ m ≤ 12 ∧ 1 ≤ d ∧ d ≤ 31 then
        some (Int.ofNat (y * 10000 + m * 100 + d))
      else none
  | _ => none

/-- One cell under `pd.to_datetime(..., errors='coerce')`: numbers are taken
as raw timestamps, timestamps kept, unparseable strings, booleans and the
missing-marker become the missing-marker. -/
def parseDatetime : Cell → Cell
  | .num q => .timestamp (Int.tdiv q.num (Int.ofNat q.den))
  | .str s =>
      match parseDateStr s with
      | some t => .timestamp t
      | none => .missing
  | .bool _ => .missing
  | .timestamp t => .timestamp t
  | .missing => .missing

/-- The per-column body of the datetime pass (lines 92-97): a name-matched
column is coerced value-wise to `datetime`, except that a `bool` column makes
`pd.to_datetime` raise a `TypeError` for the whole column, which the
surrounding `try/except: pass` swallows, leaving the column untouched. -/
def datetimeColumn (c : Col) : Col :=
  if nameMatchesDatetime c.name then
    if c.dtype = .boolDT then c
    else { c with dtype := .datetime, values := c.values.map parseDatetime }
  else c

/-- Insert into a sorted list of rationals. -/
def sortedInsert (q : ℚ) : List ℚ → List ℚ
  | [] => [q]
  | x :: xs => if q ≤ x then q :: x :: xs else x :: sortedInsert q xs

/-- Insertion sort on rationals. -/
def sortRats (l : List ℚ) : List ℚ := l.foldr sortedInsert []

/-- `Series.median()` over the non-missing values already extracted:
`none` (pandas `NaN`) on an empty list, the middle element for odd length,
the mean of the two middle elements for even length. -/
def medianQ (l : List ℚ) : Option ℚ :=
  let s := sortRats l
  let n := s.length
  if n = 0 then none
  else if n % 2 = 1 then some (s.getD (n / 2) 0)
  else some (ratDiv (ratAdd (s.getD (n / 2 - 1) 0) (s.getD (n / 2) 0)) (ratOfInt 2))

/-- `fillna`: replace the missing-marker by `fill`, keep everything else. -/
def fillCell (fill : Cell) (v : Cell) : Cell :=
  if v = Cell.missing then fill else v

/-- Numeric imputation (lines 100-101): fill missing cells with the column
median; when the median is undefined (no numeric values) the fill value is
itself `NaN` and the column is unchanged. -/
def imputeNumericCol (c : Col) : Col :=
  if c.dtype = .numeric then
    match medianQ (c.values.filterMap cellNum) with
    | some m => { c with values := c.values.map (fillCell (.num m)) }
    | none => c
  else c

/-- `str(x)` for a cell, as applied by `Series.astype(str)`; crucially the
missing-marker prints as the string `"nan"`. -/
def cellToStr : Cell → String
  | .num q => if q.den = 1 then toString q.num else toString q.num ++ "/" ++ toString q.den
  | .str s => s
  | .bool b => if b then "True" else "False"
  | .timestamp t => toString t
  | .missing => "nan"

/-- Categorical imputation (lines 103-107): `astype(str)` stringifies every
cell (turning missing into `"nan"`), then `fillna("Unknown")` runs on the
result, then `astype("category")` restores the dtype. -/
def imputeCatCol (c : Col) : Col :=
  if c.dtype = .category then
    { c with
      values := (c.values.map (fun v => Cell.str (cellToStr v))).map
        (fillCell (.str "Unknown")) }
  else c

/-- `Series.mode()[0]` for a boolean column: `none` models the `KeyError`
raised when the column has no values to take a mode of; on a tie the sorted
mode list starts with `False`. -/
def boolMode (vs : List Cell) : Option Bool :=
  let bs := vs.filterMap cellBool
  if bs.isEmpty then none
  else some (decide (bs.count true > bs.count false))

/-- Boolean imputation (lines 109-111): `fillna(mode()[0])`; the mode is
computed unconditionally, so an empty column raises `KeyError: 0`. -/
def imputeBoolCol (c : Col) : Except AppError Col :=
  if c.dtype = .boolDT then
    match boolMode c.values with
    | none => .error .keyError
    | some b => .ok { c with values := c.values.map (fillCell (.bool b)) }
  else .ok c

/-- The smaller of two timestamps. -/
def intMin (a b : ℤ) : ℤ := if a ≤ b then a else b

/-- The minimum of a list of timestamps, if any. -/
def minTS : List ℤ → Option ℤ
  | [] => none
  | t :: ts => some (ts.foldl intMin t)

/-- Datetime imputation (lines 113-115): `fillna(min())`; when every value is
missing the minimum is `NaT` and the column is unchanged. -/
def imputeDatetimeCol (c : Col) : Col :=
  if c.dtype = .datetime then
    match minTS (c.values.filterMap cellTS) with
    | some t => { c with values := c.values.map (fillCell (.timestamp t)) }
    | none => c
  else c

/-- `mapExcept f l` applies the fallible `f` to each element left to right,
stopping at the first error (the semantics of a Python loop that can raise). -/
def mapExcept {α β : Type} (f : α → Except AppError β) : List α → Except AppError (List β)
  | [] => .ok []
  | a :: l =>
      match f a with
      | .error e => .error e
      | .ok b =>
          match mapExcept f l with
          | .error e => .error e
          | .ok l' => .ok (b :: l')

/-- `clean_data` (lines 72-117): deduplicate rows, run per-column type
inference, run the datetime-name pass, then impute numeric, categorical,
boolean and datetime columns in that order. Columns are processed
independently within each pass, so each pass is a map over the columns;
the two passes that can raise run in `Except`. -/
def clean_data (df : Df) : Except AppError Df :=
  let dfd := dedupDf df
  let n := dfd.nRows
  match mapExcept (inferColumn n) dfd.cols with
  | .error e => .error e
  | .ok cols1 =>
      let cols2 := cols1.map datetimeColumn
      let cols3 := cols2.map imputeNumericCol
      let cols4 := cols3.map imputeCatCol
      match mapExcept imputeBoolCol cols4 with
      | .error e => .error e
      | .ok cols5 => .ok ⟨cols5.map imputeDatetimeCol⟩

/-- The structured content of the summary string built by
`get_dataset_summary` (lines 156-180): shape, the four dtype-grouped column
name lists, and the first-3-row sample of `df.head(3)`. -/
structure DatasetSummary where
  totalRows : Nat
  totalCols : Nat
  numericColumns : List String
  categoricalColumns : List String
  datetimeColumns : List String
  booleanColumns : List String
  sampleRows : List (List Cell)
deriving DecidableEq, Repr

/-- `get_dataset_summary` (lines 156-180): a pure function of the frame.
`select_dtypes` groups `number` / `object`-or-`category` / `datetime` /
`bool` columns; the sample is `df.head(3)`. -/
def get_dataset_summary (df : Df) : DatasetSummary :=
  { totalRows := df.nRows
    totalCols := df.cols.length
    numericColumns := (df.cols.filter (fun c => c.dtype == .numeric)).map (fun c => c.name)
    categoricalColumns :=
      (df.cols.filter (fun c => c.dtype == .object || c.dtype == .category)).map
        (fun c => c.name)
    datetimeColumns := (df.cols.filter (fun c => c.dtype == .datetime)).map (fun c => c.name)
    booleanColumns := (df.cols.filter (fun c => c.dtype == .boolDT)).map (fun c => c.name)
    sampleRows := df.rowsList.take 3 }

/-- An uploaded file as seen by `load_data`: its name and the outcome of
handing its byte stream to each of the two library parsers
(`pd.read_csv` / `pd.read_excel`). -/
structure UploadedFile where
  name : String
  csvParse : Except AppError Df
  excelParse : Except AppError Df

/-- `file.name.endswith('.csv')`. -/
def hasCsvExt (s : String) : Bool :=
  decide (s.data.drop (s.data.length - 4) = ".csv".data) && decide (s.data.length ≥ 4)

/-- `load_data` (lines 60-70): pick the parser by extension, run
`clean_data`, and catch every exception from either stage, reporting it as
`st.error(f"Error loading file: {e}")` and returning `None`. The result pair
is (returned dataframe, error message shown, if any). -/
def load_data (file : Option UploadedFile) : Option Df × Option String :=
  match file with
  | none => (none, none)
  | some f =>
      let parsed := if hasCsvExt f.name then f.csvParse else f.excelParse
      match parsed.bind clean_data with
      | .ok df => (some df, none)
      | .error e => (none, some ("Error loading file: " ++ e.message))

/-! ### The shallow arithmetic helpers agree with the standard operations -/

theorem ratOfInt_eq (t : ℤ) : ratOfInt t = (t : ℚ) := by
  have h1 : ((t : ℚ)).num = t := Rat.intCast_num t
  have h2 : ((t : ℚ)).den = 1 := Rat.intCast_den t
  rw [ratOfInt]
  exact Rat.ext h1.symm h2.symm |>.symm

theorem intMin_eq (a b : ℤ) : intMin a b = min a b := (min_def a b).symm

theorem ratAdd_eq (a b : ℚ) : ratAdd a b = a + b := by
  have ha : ((a.den : ℚ)) ≠ 0 := by exact_mod_cast a.den_nz
  have hb : ((b.den : ℚ)) ≠ 0 := by exact_mod_cast b.den_nz
  conv_rhs => rw [← Rat.num_div_den a, ← Rat.num_div_den b]
  rw [ratAdd, Rat.mkRat_eq_div]
  push_cast
  field_simp

theorem ratDiv_eq (a b : ℚ) : ratDiv a b = a / b := by
  rcases eq_or_ne b 0 with rfl | hb0
  · simp [ratDiv, Rat.mkRat_eq_div]
  · have hbn : b.num ≠ 0 := Rat.num_ne_zero.mpr hb0
    have ha : ((a.den : ℚ)) ≠ 0 := by exact_mod_cast a.den_nz
    have hb : ((b.den : ℚ)) ≠ 0 := by exact_mod_cast b.den_nz
    have hbnq : ((b.num : ℚ)) ≠ 0 := by exact_mod_cast hbn
    conv_rhs => rw [← Rat.num_div_den a, ← Rat.num_div_den b]
    rw [ratDiv]
    split
    case isTrue h =>
      rw [Rat.mkRat_eq_div]
      have habs : (b.num.natAbs : ℤ) = b.num := Int.natAbs_of_nonneg h
      have habsq : ((b.num.natAbs : ℕ) : ℚ) = ((b.num : ℚ)) := by
        rw [Int.cast_natAbs]
        exact_mod_cast abs_of_nonneg h
      push_cast [habs]
      field_simp
      left
      exact habsq.symm
    case isFalse h =>
      rw [Rat.mkRat_eq_div]
      have habs : (b.num.natAbs : ℤ) = -b.num := Int.ofNat_natAbs_of_nonpos (by omega)
      have habsq : ((b.num.natAbs : ℕ) : ℚ) = -((b.num : ℚ)) := by
        rw [Int.cast_natAbs]
        have h9 : b.num ≤ 0 := by omega
        exact_mod_cast abs_of_nonpos h9
      push_cast [habs]
      field_simp
      rw [habsq]
      ring

/-! ### Deduplication: `firstOccurrences` keeps one copy of each row -/

theorem foldl_firstOcc_nodup {α : Type} [DecidableEq α] (l : List α) :
    ∀ acc : List α, acc.Nodup →
      (l.foldl (fun acc a => if a ∈ acc then acc else acc ++ [a]) acc).Nodup := by
  induction l with
  | nil => intro acc h; simpa using h
  | cons a l ih =>
      intro acc h
      simp only [List.foldl_cons]
      by_cases hm : a ∈ acc
      · simpa [hm] using ih acc h
      · simp only [hm, if_false]
        refine ih _ ?_
        rw [List.nodup_append]
        refine ⟨h, List.nodup_singleton a, ?_⟩
        intro x hx hxa
        simp only [List.mem_singleton] at hxa
        exact hm (hxa ▸ hx)

theorem firstOccurrences_nodup {α : Type} [DecidableEq α] (l : List α) :
    (firstOccurrences l).Nodup :=
  foldl_firstOcc_nodup l [] List.nodup_nil

theorem foldl_firstOcc_eq_append {α : Type} [DecidableEq α] (l : List α) :
    ∀ acc : List α, l.Nodup → (∀ x ∈ l, x ∉ acc) →
      l.foldl (fun acc a => if a ∈ acc then acc else acc ++ [a]) acc = acc ++ l := by
  induction l with
  | nil => intro acc _ _; simp
  | cons a l ih =>
      intro acc hnd hd
      have ha : a ∉ acc := hd a (List.mem_cons_self a l)
      simp only [List.foldl_cons, ha, if_false]
      rw [ih (acc ++ [a]) (List.Nodup.of_cons hnd)]
      · simp
      · intro x hx
        rw [List.mem_append, List.mem_singleton]
        rintro (hx1 | rfl)
        · exact hd x (List.mem_cons_of_mem a hx) hx1
        · exact (List.nodup_cons.mp hnd).1 hx

theorem firstOccurrences_eq_self {α : Type} [DecidableEq α] {l : List α} (h : l.Nodup) :
    firstOccurrences l = l := by
  simpa using foldl_firstOcc_eq_append l [] h (by simp)

theorem foldl_firstOcc_mem {α : Type} [DecidableEq α] (l : List α) :
    ∀ acc x, x ∈ l.foldl (fun acc a => if a ∈ acc then acc else acc ++ [a]) acc →
      x ∈ acc ∨ x ∈ l := by
  induction l with
  | nil => intro acc x h; exact Or.inl (by simpa using h)
  | cons a l ih =>
      intro acc x h
      simp only [List.foldl_cons] at h
      by_cases hm : a ∈ acc
      · rw [if_pos hm] at h
        rcases ih acc x h with h1 | h1
        · exact Or.inl h1
        · exact Or.inr (List.mem_cons_of_mem a h1)
      · rw [if_neg hm] at h
        rcases ih (acc ++ [a]) x h with h1 | h1
        · rw [List.mem_append, List.mem_singleton] at h1
          rcases h1 with h1 | rfl
          · exact Or.inl h1
          · exact Or.inr (List.mem_cons_self x l)
        · exact Or.inr (List.mem_cons_of_mem a h1)

theorem firstOccurrences_subset {α : Type} [DecidableEq α] {l : List α} {x : α}
    (h : x ∈ firstOccurrences l) : x ∈ l := by
  rcases foldl_firstOcc_mem l [] x h with h1 | h1
  · simp at h1
  · exact h1

/-! ### Transposition: `rowsList` and `rebuildCols` are mutually inverse -/

theorem getD_map_lt {α β : Type} (f : α → β) (l : List α) (k : Nat) (h : k < l.length) (d : β) :
    (l.map f).getD k d = f l[k] := by
  rw [List.getD_eq_getElem?_getD, List.getElem?_map, List.getElem?_eq_getElem h]
  rfl

theorem map_getD_range {α : Type} (l : List α) (d : α) :
    (List.range l.length).map (fun i => l.getD i d) = l := by
  apply List.ext_getElem
  · simp
  · intro n h1 h2
    rw [List.getElem_map, List.getElem_range]
    rw [List.getD_eq_getElem?_getD, List.getElem?_eq_getElem h2]
    rfl

theorem length_rebuildCols (cs : List Col) (j : Nat) (rows : List (List Cell)) :
    (rebuildCols cs j rows).length = cs.length := by
  induction cs generalizing j with
  | nil => rfl
  | cons c cs ih => simp [rebuildCols, ih]

theorem rebuildCols_map_getD (cs : List Col) (rows : List (List Cell)) (i : Nat) :
    ∀ j, (rebuildCols cs j rows).map (fun c => c.values.getD i Cell.missing) =
      (List.range' j cs.length).map
        (fun k => (rows.map (fun r => r.getD k Cell.missing)).getD i Cell.missing) := by
  induction cs with
  | nil => intro j; rfl
  | cons c cs ih =>
      intro j
      rw [rebuildCols, List.map_cons, List.length_cons, List.range'_succ, List.map_cons,
        ih (j + 1)]

theorem nRows_mk_rebuildCols (cs : List Col) (rows : List (List Cell)) (h : cs ≠ []) :
    (Df.mk (rebuildCols cs 0 rows)).nRows = rows.length := by
  cases cs with
  | nil => exact absurd rfl h
  | cons c cs => simp [Df.nRows, rebuildCols]

theorem rowsList_mk_rebuildCols (cs : List Col) (rows : List (List Cell)) (hcs : cs ≠ [])
    (hlen : ∀ r ∈ rows, r.length = cs.length) :
    (Df.mk (rebuildCols cs 0 rows)).rowsList = rows := by
  rw [Df.rowsList, nRows_mk_rebuildCols cs rows hcs]
  apply List.ext_getElem
  · simp [length_rebuildCols]
  · intro i h1 h2
    rw [List.getElem_map, List.getElem_range]
    show (rebuildCols cs 0 rows).map (fun c => c.values.getD i Cell.missing) = rows[i]
    rw [rebuildCols_map_getD cs rows i 0, ← List.range_eq_range']
    have hmem : rows[i] ∈ rows := List.getElem_mem h2
    have hri : rows[i].length = cs.length := hlen rows[i] hmem
    have hstep : ∀ k ∈ List.range cs.length,
        (rows.map (fun r => r.getD k Cell.missing)).getD i Cell.missing =
          rows[i].getD k Cell.missing := by
      intro k _
      exact getD_map_lt (fun r => r.getD k Cell.missing) rows i h2 Cell.missing
    rw [List.map_congr_left hstep, ← hri, map_getD_range]

theorem rebuildCols_eq_of_cols (rows : List (List Cell)) :
    ∀ (cs : List Col) (j : Nat),
      (∀ k (hk : k < cs.length),
        rows.map (fun r => r.getD (j + k) Cell.missing) = (cs.get ⟨k, hk⟩).values) →
      rebuildCols cs j rows = cs := by
  intro cs
  induction cs with
  | nil => intro j _; rfl
  | cons c cs ih =>
      intro j h
      have h0 : rows.map (fun r => r.getD j Cell.missing) = c.values := by
        simpa using h 0 (Nat.succ_pos cs.length)
      have htail : rebuildCols cs (j + 1) rows = cs := by
        apply ih
        intro k hk
        have hh := h (k + 1) (Nat.succ_lt_succ hk)
        have harith : j + (k + 1) = j + 1 + k := by omega
        rw [harith] at hh
        simpa using hh
      show ({ c with values := rows.map (fun r => r.getD j Cell.missing) } : Col) ::
          rebuildCols cs (j + 1) rows = c :: cs
      rw [h0, htail]

theorem rebuildCols_rowsList_self (df : Df)
    (hwf : ∀ c ∈ df.cols, c.values.length = df.nRows) :
    rebuildCols df.cols 0 df.rowsList = df.cols := by
  apply rebuildCols_eq_of_cols
  intro k hk
  simp only [Nat.zero_add]
  rw [Df.rowsList, List.map_map]
  have hstep : ∀ i ∈ List.range df.nRows,
      ((fun r => r.getD k Cell.missing) ∘
        (fun i => df.cols.map (fun c => c.values.getD i Cell.missing))) i =
        (df.cols.get ⟨k, hk⟩).values.getD i Cell.missing := by
    intro i _
    show (df.cols.map (fun c => c.values.getD i Cell.missing)).getD k Cell.missing =
      (df.cols.get ⟨k, hk⟩).values.getD i Cell.missing
    rw [getD_map_lt (fun c => c.values.getD i Cell.missing) df.cols k hk Cell.missing]
    rfl
  rw [List.map_congr_left hstep]
  have hlen : (df.cols.get ⟨k, hk⟩).values.length = df.nRows :=
    hwf _ (List.get_mem df.cols k hk)
  rw [← hlen, map_getD_range]

/-! ### Behaviour of the deduplication step -/

theorem rowsList_row_length (df : Df) {r : List Cell} (h : r ∈ df.rowsList) :
    r.length = df.cols.length := by
  rw [Df.rowsList] at h
  rcases List.mem_map.mp h with ⟨i, _, rfl⟩
  simp

theorem dedupDf_rowsList (df : Df) (hcs : df.cols ≠ []) :
    (dedupDf df).rowsList = firstOccurrences df.rowsList := by
  rw [dedupDf]
  apply rowsList_mk_rebuildCols df.cols _ hcs
  intro r hr
  exact rowsList_row_length df (firstOccurrences_subset hr)

theorem dedupDf_rowsList_nodup (df : Df) : ((dedupDf df).rowsList).Nodup := by
  by_cases hcs : df.cols = []
  · rw [dedupDf, hcs]
    simp [Df.rowsList, Df.nRows, rebuildCols]
  · rw [dedupDf_rowsList df hcs]
    exact firstOccurrences_nodup _

theorem dedupDf_eq_self (df : Df) (hwf : ∀ c ∈ df.cols, c.values.length = df.nRows)
    (hnd : df.rowsList.Nodup) : dedupDf df = df := by
  rw [dedupDf, firstOccurrences_eq_self hnd, rebuildCols_rowsList_self df hwf]

/-! ### `mapExcept` -/

theorem mapExcept_ok_id {α : Type} (f : α → Except AppError α) :
    ∀ l : List α, (∀ a ∈ l, f a = .ok a) → mapExcept f l = .ok l := by
  intro l
  induction l with
  | nil => intro _; rfl
  | cons a l ih =>
      intro h
      rw [mapExcept, h a (List.mem_cons_self a l),
        ih (fun x hx => h x (List.mem_cons_of_mem a hx))]

theorem mapExcept_ok_mem {α β : Type} (f : α → Except AppError β) :
    ∀ (l : List α) (l' : List β), mapExcept f l = .ok l' →
      ∀ b ∈ l', ∃ a ∈ l, f a = .ok b := by
  intro l
  induction l with
  | nil =>
      intro l' h b hb
      rw [mapExcept] at h
      cases h
      simp at hb
  | cons a l ih =>
      intro l' h b hb
      rw [mapExcept] at h
      cases hfa : f a with
      | error e => rw [hfa] at h; cases h
      | ok b0 =>
          rw [hfa] at h
          cases hml : mapExcept f l with
          | error e => rw [hml] at h; cases h
          | ok l0 =>
              rw [hml] at h
              cases h
              rcases List.mem_cons.mp hb with rfl | hb'
              · exact ⟨a, List.mem_cons_self a l, hfa⟩
              · rcases ih l0 hml b hb' with ⟨a', ha', hfa'⟩
                exact ⟨a', List.mem_cons_of_mem a ha', hfa'⟩

/-! ### Per-column behaviour of the passes of `clean_data` -/

theorem inferColumn_numeric_id (n : Nat) (c : Col) (hdt : c.dtype = .numeric)
    (hv : ∀ v ∈ c.values, ∃ q, v = Cell.num q) : inferColumn n c = .ok c := by
  obtain ⟨name, dtype, values⟩ := c
  simp only at hdt
  subst hdt
  rw [inferColumn]
  have hmap : values.map coerceNumeric = values := by
    have hpt : ∀ v ∈ values, coerceNumeric v = id v := by
      intro v hv'
      rcases hv v hv' with ⟨q, rfl⟩
      rfl
    rw [List.map_congr_left hpt, List.map_id]
  rw [hmap]

theorem datetimeColumn_of_no_match (c : Col) (h : nameMatchesDatetime c.name = false) :
    datetimeColumn c = c := by
  rw [datetimeColumn, h]
  simp

theorem datetimeColumn_dtype_ne (c : Col) (h : c.dtype ≠ .datetime) :
    (datetimeColumn c).dtype = .datetime ↔
      nameMatchesDatetime c.name = true ∧ c.dtype ≠ .boolDT := by
  rw [datetimeColumn]
  by_cases hm : nameMatchesDatetime c.name
  · rw [if_pos hm]
    by_cases hb : c.dtype = .boolDT
    · rw [if_pos hb]
      simp [hm, hb, h]
    · rw [if_neg hb]
      simp [hm, hb]
  · rw [if_neg hm]
    simp [hm, h]

theorem missing_not_mem_map_fillCell (fill : Cell) (h : fill ≠ Cell.missing)
    (vs : List Cell) : Cell.missing ∉ vs.map (fillCell fill) := by
  intro hmem
  rcases List.mem_map.mp hmem with ⟨v, _, hveq⟩
  rw [fillCell] at hveq
  by_cases hv : v = Cell.missing
  · rw [if_pos hv] at hveq
    exact h hveq
  · rw [if_neg hv] at hveq
    exact hv hveq

theorem imputeNumericCol_no_missing (c : Col) (hv : ∀ v ∈ c.values, v ≠ Cell.missing) :
    imputeNumericCol c = c := by
  rw [imputeNumericCol]
  split
  · split
    · next m _ =>
        have hmap : c.values.map (fillCell (Cell.num m)) = c.values := by
          have hpt : ∀ v ∈ c.values, fillCell (Cell.num m) v = id v := by
            intro v hv'
            rw [fillCell, if_neg (hv v hv')]
            rfl
          rw [List.map_congr_left hpt, List.map_id]
        rw [hmap]
    · rfl
  · rfl

theorem imputeNumericCol_of_ne (c : Col) (h : c.dtype ≠ .numeric) :
    imputeNumericCol c = c := by
  rw [imputeNumericCol, if_neg h]

theorem imputeNumericCol_dtype (c : Col) : (imputeNumericCol c).dtype = c.dtype := by
  rw [imputeNumericCol]
  split
  · split <;> rfl
  · rfl

theorem imputeCatCol_of_ne (c : Col) (h : c.dtype ≠ .category) : imputeCatCol c = c := by
  rw [imputeCatCol, if_neg h]

theorem imputeCatCol_dtype (c : Col) : (imputeCatCol c).dtype = c.dtype := by
  rw [imputeCatCol]
  split <;> rfl

theorem imputeCatCol_no_missing (c : Col) (h : c.dtype = .category) :
    Cell.missing ∉ (imputeCatCol c).values := by
  rw [imputeCatCol, if_pos h]
  intro hmem
  simp only [List.mem_map] at hmem
  rcases hmem with ⟨v, ⟨w, _, hw⟩, hveq⟩
  subst hw
  rw [fillCell] at hveq
  simp at hveq

theorem imputeBoolCol_of_ne (c : Col) (h : c.dtype ≠ .boolDT) : imputeBoolCol c = .ok c := by
  rw [imputeBoolCol, if_neg h]

theorem imputeBoolCol_ok_dtype (c c' : Col) (h : imputeBoolCol c = .ok c') :
    c'.dtype = c.dtype := by
  rw [imputeBoolCol] at h
  by_cases hb : c.dtype = .boolDT
  · rw [if_pos hb] at h
    cases hmode : boolMode c.values with
    | none => rw [hmode] at h; cases h
    | some b => rw [hmode] at h; cases h; rfl
  · rw [if_neg hb] at h
    cases h
    rfl

theorem imputeBoolCol_ok_values (c c' : Col) (hb : c.dtype ≠ .boolDT)
    (h : imputeBoolCol c = .ok c') : c' = c := by
  rw [imputeBoolCol, if_neg hb] at h
  cases h
  rfl

theorem imputeDatetimeCol_of_ne (c : Col) (h : c.dtype ≠ .datetime) :
    imputeDatetimeCol c = c := by
  rw [imputeDatetimeCol, if_neg h]

theorem imputeDatetimeCol_dtype (c : Col) : (imputeDatetimeCol c).dtype = c.dtype := by
  rw [imputeDatetimeCol]
  split
  · split <;> rfl
  · rfl

/-! ### Existence of the imputation statistics -/

theorem length_sortedInsert (q : ℚ) (l : List ℚ) :
    (sortedInsert q l).length = l.length + 1 := by
  induction l with
  | nil => rfl
  | cons x xs ih =>
      rw [sortedInsert]
      split
      · rfl
      · simp [ih]

theorem length_sortRats (l : List ℚ) : (sortRats l).length = l.length := by
  induction l with
  | nil => rfl
  | cons x xs ih =>
      rw [sortRats, List.foldr_cons]
      rw [show List.foldr sortedInsert [] xs = sortRats xs from rfl]
      rw [length_sortedInsert, ih, List.length_cons]

theorem medianQ_isSome (l : List ℚ) (h : l ≠ []) : ∃ m, medianQ l = some m := by
  rw [medianQ]
  have hn : (sortRats l).length ≠ 0 := by
    rw [length_sortRats]
    exact fun h0 => h (List.length_eq_zero.mp h0)
  rw [if_neg hn]
  split
  · exact ⟨_, rfl⟩
  · exact ⟨_, rfl⟩

theorem boolMode_isSome (vs : List Cell) (b : Bool) (h : Cell.bool b ∈ vs) :
    ∃ m, boolMode vs = some m := by
  have hb : b ∈ vs.filterMap cellBool := List.mem_filterMap.mpr ⟨Cell.bool b, h, rfl⟩
  rw [boolMode]
  have : (vs.filterMap cellBool).isEmpty = false := by
    cases hl : vs.filterMap cellBool with
    | nil => rw [hl] at hb; simp at hb
    | cons x xs => rfl
  rw [this]
  exact ⟨_, rfl⟩

theorem minTS_isSome (l : List ℤ) (h : l ≠ []) : ∃ t, minTS l = some t := by
  cases l with
  | nil => exact absurd rfl h
  | cons t ts => exact ⟨_, rfl⟩

/-! ### Imputation with an undefined statistic (all-missing columns) -/

theorem filterMap_cellNum_all_missing (vs : List Cell)
    (hv : ∀ v ∈ vs, v = Cell.missing) : vs.filterMap cellNum = [] := by
  rw [List.filterMap_eq_nil_iff]
  intro v hv'
  rw [hv v hv']
  rfl

theorem filterMap_cellTS_all_missing (vs : List Cell)
    (hv : ∀ v ∈ vs, v = Cell.missing) : vs.filterMap cellTS = [] := by
  rw [List.filterMap_eq_nil_iff]
  intro v hv'
  rw [hv v hv']
  rfl

theorem imputeNumericCol_all_missing (c : Col) (hdt : c.dtype = .numeric)
    (hv : ∀ v ∈ c.values, v = Cell.missing) : imputeNumericCol c = c := by
  rw [imputeNumericCol, if_pos hdt, filterMap_cellNum_all_missing c.values hv]
  rfl

theorem imputeDatetimeCol_all_missing (c : Col) (hdt : c.dtype = .datetime)
    (hv : ∀ v ∈ c.values, v = Cell.missing) : imputeDatetimeCol c = c := by
  rw [imputeDatetimeCol, if_pos hdt, filterMap_cellTS_all_missing c.values hv]
  rfl

theorem imputeBoolCol_empty (c : Col) (hdt : c.dtype = .boolDT) (hv : c.values = []) :
    imputeBoolCol c = .error .keyError := by
  rw [imputeBoolCol, if_pos hdt, hv]
  rfl

/-! ### `clean_data` fixes fully-numeric duplicate-free tables -/

theorem map_id_of_forall {α : Type} (f : α → α) (l : List α) (h : ∀ a ∈ l, f a = a) :
    l.map f = l := by
  have h' : ∀ a ∈ l, f a = id a := h
  rw [List.map_congr_left h', List.map_id]

theorem clean_data_fixed_point (df : Df)
    (hwf : ∀ c ∈ df.cols, c.values.length = df.nRows)
    (hnum : ∀ c ∈ df.cols, c.dtype = Dtype.numeric)
    (hvals : ∀ c ∈ df.cols, ∀ v ∈ c.values, ∃ q, v = Cell.num q)
    (hname : ∀ c ∈ df.cols, nameMatchesDatetime c.name = false)
    (hnd : df.rowsList.Nodup) :
    clean_data df = .ok df := by
  have hded : dedupDf df = df := dedupDf_eq_self df hwf hnd
  have h1 : mapExcept (inferColumn df.nRows) df.cols = .ok df.cols :=
    mapExcept_ok_id _ _ (fun c hc => inferColumn_numeric_id _ c (hnum c hc) (hvals c hc))
  have h2 : df.cols.map datetimeColumn = df.cols :=
    map_id_of_forall _ _ (fun c hc => datetimeColumn_of_no_match c (hname c hc))
  have h3 : df.cols.map imputeNumericCol = df.cols :=
    map_id_of_forall _ _ (fun c hc => imputeNumericCol_no_missing c (by
      intro v hv
      rcases hvals c hc v hv with ⟨q, rfl⟩
      simp))
  have h4 : df.cols.map imputeCatCol = df.cols :=
    map_id_of_forall _ _ (fun c hc => imputeCatCol_of_ne c (by rw [hnum c hc]; simp))
  have h5 : mapExcept imputeBoolCol df.cols = .ok df.cols :=
    mapExcept_ok_id _ _ (fun c hc => imputeBoolCol_of_ne c (by rw [hnum c hc]; simp))
  have h6 : df.cols.map imputeDatetimeCol = df.cols :=
    map_id_of_forall _ _ (fun c hc => imputeDatetimeCol_of_ne c (by rw [hnum c hc]; simp))
  simp only [clean_data, hded, h1, h2, h3, h4, h5, h6]

/-! ### No missing value survives categorical imputation, end to end -/

theorem clean_data_category_no_missing (df df' : Df) (h : clean_data df = .ok df') :
    ∀ c' ∈ df'.cols, c'.dtype = .category → Cell.missing ∉ c'.values := by
  intro c' hc' hdt
  simp only [clean_data] at h
  cases h1 : mapExcept (inferColumn (dedupDf df).nRows) (dedupDf df).cols with
  | error e => rw [h1] at h; cases h
  | ok cols1 =>
      rw [h1] at h
      simp only at h
      cases h2 : mapExcept imputeBoolCol
          (((cols1.map datetimeColumn).map imputeNumericCol).map imputeCatCol) with
      | error e => rw [h2] at h; cases h
      | ok cols5 =>
          rw [h2] at h
          simp only at h
          cases h
          rcases List.mem_map.mp hc' with ⟨c4, hc4, rfl⟩
          have hdt4 : c4.dtype = .category := by
            rw [← imputeDatetimeCol_dtype c4]
            exact hdt
          rw [imputeDatetimeCol_of_ne c4 (by rw [hdt4]; simp)]
          rcases mapExcept_ok_mem imputeBoolCol _ _ h2 c4 hc4 with ⟨c3, hc3, hbc3⟩
          have hdt3 : c3.dtype = .category := by
            rw [← imputeBoolCol_ok_dtype c3 c4 hbc3]
            exact hdt4
          have hc43 : c4 = c3 := imputeBoolCol_ok_values c3 c4 (by rw [hdt3]; simp) hbc3
          subst hc43
          rcases List.mem_map.mp hc3 with ⟨c2, hc2, rfl⟩
          by_cases hdt2 : c2.dtype = .category
          · exact imputeCatCol_no_missing c2 hdt2
          · rw [imputeCatCol_of_ne c2 hdt2] at hdt3
            exact absurd hdt3 hdt2

/-! ### Well-typedness of columns produced by the passes -/

theorem medianQ_eq_none (l : List ℚ) (h : medianQ l = none) : l = [] := by
  by_contra hne
  rcases medianQ_isSome l hne with ⟨m, hm⟩
  rw [hm] at h
  cases h

theorem minTS_eq_none (l : List ℤ) (h : minTS l = none) : l = [] := by
  cases l with
  | nil => rfl
  | cons t ts => cases h

theorem coerceNumeric_wt (v : Cell) :
    coerceNumeric v = Cell.missing ∨ ∃ q, coerceNumeric v = Cell.num q := by
  cases v with
  | num q => exact Or.inr ⟨q, rfl⟩
  | str s =>
      cases hp : parseNum s with
      | some q => exact Or.inr ⟨q, by simp [coerceNumeric, hp]⟩
      | none => exact Or.inl (by simp [coerceNumeric, hp])
  | bool b => exact Or.inr ⟨_, rfl⟩
  | timestamp t => exact Or.inr ⟨_, rfl⟩
  | missing => exact Or.inl rfl

theorem parseDatetime_wt (v : Cell) :
    parseDatetime v = Cell.missing ∨ ∃ t, parseDatetime v = Cell.timestamp t := by
  cases v with
  | num q => exact Or.inr ⟨_, rfl⟩
  | str s =>
      cases hp : parseDateStr s with
      | some t => exact Or.inr ⟨t, by simp [parseDatetime, hp]⟩
      | none => exact Or.inl (by simp [parseDatetime, hp])
  | bool b => exact Or.inl rfl
  | timestamp t => exact Or.inr ⟨_, rfl⟩
  | missing => exact Or.inl rfl

theorem inferColumn_ok_cases (n : Nat) (c c' : Col) (h : inferColumn n c = .ok c') :
    (c.dtype = .object ∧ (c' = { c with dtype := .category } ∨ c' = c)) ∨
    (c.dtype = .boolDT ∧ c' = c) ∨
    (c.dtype ≠ .object ∧ c.dtype ≠ .boolDT ∧
      c' = { c with dtype := .numeric, values := c.values.map coerceNumeric }) := by
  obtain ⟨nm, dt, vals⟩ := c
  cases dt with
  | object =>
      simp only [inferColumn] at h
      by_cases hn : n = 0
      · rw [if_pos hn] at h
        cases h
      · rw [if_neg hn] at h
        by_cases hr : ratDiv (ratOfInt (Int.ofNat (uniqueCount vals)))
            (ratOfInt (Int.ofNat n)) < mkRat 3 10
        · rw [if_pos hr] at h
          cases h
          exact Or.inl ⟨rfl, Or.inl rfl⟩
        · rw [if_neg hr] at h
          cases h
          exact Or.inl ⟨rfl, Or.inr rfl⟩
  | boolDT =>
      simp only [inferColumn] at h
      cases h
      exact Or.inr (Or.inl ⟨rfl, rfl⟩)
  | numeric =>
      simp only [inferColumn] at h
      cases h
      exact Or.inr (Or.inr ⟨by simp, by simp, rfl⟩)
  | category =>
      simp only [inferColumn] at h
      cases h
      exact Or.inr (Or.inr ⟨by simp, by simp, rfl⟩)
  | datetime =>
      simp only [inferColumn] at h
      cases h
      exact Or.inr (Or.inr ⟨by simp, by simp, rfl⟩)

theorem inferColumn_ok_numeric_wt (n : Nat) (c c' : Col) (h : inferColumn n c = .ok c')
    (hdt : c'.dtype = .numeric) :
    ∀ v ∈ c'.values, v = Cell.missing ∨ ∃ q, v = Cell.num q := by
  rcases inferColumn_ok_cases n c c' h with ⟨hob, (rfl | rfl)⟩ | ⟨hb, rfl⟩ | ⟨_, _, rfl⟩
  · simp at hdt
  · rw [hob] at hdt
    cases hdt
  · rw [hb] at hdt
    cases hdt
  · intro v hv
    rcases List.mem_map.mp hv with ⟨w, _, rfl⟩
    exact coerceNumeric_wt w

theorem inferColumn_ok_dtype_ne_datetime (n : Nat) (c c' : Col)
    (h : inferColumn n c = .ok c') : c'.dtype ≠ .datetime := by
  rcases inferColumn_ok_cases n c c' h with ⟨hob, (rfl | rfl)⟩ | ⟨hb, rfl⟩ | ⟨_, _, rfl⟩
  · simp
  · rw [hob]; simp
  · rw [hb]; simp
  · simp

theorem datetimeColumn_eq_self_of_dtype_ne (c : Col)
    (h : (datetimeColumn c).dtype ≠ .datetime) : datetimeColumn c = c := by
  rw [datetimeColumn] at h ⊢
  by_cases hm : nameMatchesDatetime c.name
  · rw [if_pos hm] at h ⊢
    by_cases hb : c.dtype = .boolDT
    · rw [if_pos hb]
    · rw [if_neg hb] at h
      simp at h
  · rw [if_neg hm]

theorem datetimeColumn_values_wt (c : Col) (h : (datetimeColumn c).dtype = .datetime)
    (hne : c.dtype ≠ .datetime) :
    ∀ v ∈ (datetimeColumn c).values, v = Cell.missing ∨ ∃ t, v = Cell.timestamp t := by
  rw [datetimeColumn] at h ⊢
  by_cases hm : nameMatchesDatetime c.name
  · rw [if_pos hm] at h ⊢
    by_cases hb : c.dtype = .boolDT
    · rw [if_pos hb] at h
      exact absurd h hne
    · rw [if_neg hb]
      intro v hv
      rcases List.mem_map.mp hv with ⟨w, _, rfl⟩
      exact parseDatetime_wt w
  · rw [if_neg hm] at h
    exact absurd h hne

theorem imputeBoolCol_ok_no_missing (c c' : Col) (hdt : c.dtype = .boolDT)
    (h : imputeBoolCol c = .ok c') : Cell.missing ∉ c'.values := by
  rw [imputeBoolCol, if_pos hdt] at h
  cases hm : boolMode c.values with
  | none => rw [hm] at h; cases h
  | some m =>
      rw [hm] at h
      cases h
      exact missing_not_mem_map_fillCell (Cell.bool m) (by simp) c.values

theorem imputeNumericCol_no_missing_of_wt (c : Col) (hdt : c.dtype = .numeric)
    (hwt : ∀ v ∈ c.values, v = Cell.missing ∨ ∃ q, v = Cell.num q)
    (hex : ∃ v ∈ (imputeNumericCol c).values, v ≠ Cell.missing) :
    Cell.missing ∉ (imputeNumericCol c).values := by
  rw [imputeNumericCol, if_pos hdt] at hex ⊢
  cases hm : medianQ (c.values.filterMap cellNum) with
  | some m =>
      exact missing_not_mem_map_fillCell (Cell.num m) (by simp) c.values
  | none =>
      rw [hm] at hex
      have hl : c.values.filterMap cellNum = [] := medianQ_eq_none _ hm
      rcases hex with ⟨v, hv, hvm⟩
      rcases hwt v hv with rfl | ⟨q, rfl⟩
      · exact absurd rfl hvm
      · have hq : q ∈ c.values.filterMap cellNum :=
          List.mem_filterMap.mpr ⟨_, hv, rfl⟩
        rw [hl] at hq
        simp at hq

theorem imputeDatetimeCol_no_missing_of_wt (c : Col) (hdt : c.dtype = .datetime)
    (hwt : ∀ v ∈ c.values, v = Cell.missing ∨ ∃ t, v = Cell.timestamp t)
    (hex : ∃ v ∈ (imputeDatetimeCol c).values, v ≠ Cell.missing) :
    Cell.missing ∉ (imputeDatetimeCol c).values := by
  rw [imputeDatetimeCol, if_pos hdt] at hex ⊢
  cases hm : minTS (c.values.filterMap cellTS) with
  | some m =>
      exact missing_not_mem_map_fillCell (Cell.timestamp m) (by simp) c.values
  | none =>
      rw [hm] at hex
      have hl : c.values.filterMap cellTS = [] := minTS_eq_none _ hm
      rcases hex with ⟨v, hv, hvm⟩
      rcases hwt v hv with rfl | ⟨t, rfl⟩
      · exact absurd rfl hvm
      · have ht : t ∈ c.values.filterMap cellTS :=
          List.mem_filterMap.mpr ⟨_, hv, rfl⟩
        rw [hl] at ht
        simp at ht

/-- End-to-end: a typed column of a successfully normalized table retains no
missing-marker — unconditionally for Categorical and Boolean columns, and as
soon as the column has a non-missing value for Numeric and Datetime. -/
theorem clean_data_no_missing_master (df df' : Df) (h : clean_data df = .ok df') :
    ∀ c' ∈ df'.cols,
      (c'.dtype = .category → Cell.missing ∉ c'.values) ∧
      (c'.dtype = .boolDT → Cell.missing ∉ c'.values) ∧
      (c'.dtype = .numeric → (∃ v ∈ c'.values, v ≠ Cell.missing) →
        Cell.missing ∉ c'.values) ∧
      (c'.dtype = .datetime → (∃ v ∈ c'.values, v ≠ Cell.missing) →
        Cell.missing ∉ c'.values) := by
  intro c' hc'
  have hcat := clean_data_category_no_missing df df' h c' hc'
  refine ⟨hcat, ?_⟩
  simp only [clean_data] at h
  cases h1 : mapExcept (inferColumn (dedupDf df).nRows) (dedupDf df).cols with
  | error e => rw [h1] at h; cases h
  | ok cols1 =>
      rw [h1] at h
      simp only at h
      cases h2 : mapExcept imputeBoolCol
          (((cols1.map datetimeColumn).map imputeNumericCol).map imputeCatCol) with
      | error e => rw [h2] at h; cases h
      | ok cols5 =>
          rw [h2] at h
          simp only at h
          cases h
          rcases List.mem_map.mp hc' with ⟨c4, hc4, rfl⟩
          rcases mapExcept_ok_mem imputeBoolCol _ _ h2 c4 hc4 with ⟨c3, hc3, hbc3⟩
          rcases List.mem_map.mp hc3 with ⟨c2, hc2, rfl⟩
          rcases List.mem_map.mp hc2 with ⟨c1, hc1, rfl⟩
          rcases List.mem_map.mp hc1 with ⟨c0, hc0, rfl⟩
          rcases mapExcept_ok_mem _ _ _ h1 c0 hc0 with ⟨c00, _, hic⟩
          refine ⟨?_, ?_, ?_⟩
          · -- Boolean columns
            intro hdt
            have hd4 : c4.dtype = .boolDT := by
              rw [← imputeDatetimeCol_dtype c4]; exact hdt
            rw [imputeDatetimeCol_of_ne c4 (by rw [hd4]; simp)]
            have hd3 : (imputeCatCol (imputeNumericCol (datetimeColumn c0))).dtype = .boolDT := by
              rw [← imputeBoolCol_ok_dtype _ _ hbc3]; exact hd4
            exact imputeBoolCol_ok_no_missing _ _ hd3 hbc3
          · -- Numeric columns
            intro hdt hex
            have hd4 : c4.dtype = .numeric := by
              rw [← imputeDatetimeCol_dtype c4]; exact hdt
            rw [imputeDatetimeCol_of_ne c4 (by rw [hd4]; simp)] at hex ⊢
            have hd3 : (imputeCatCol (imputeNumericCol (datetimeColumn c0))).dtype = .numeric := by
              rw [← imputeBoolCol_ok_dtype _ _ hbc3]; exact hd4
            have h43 : c4 = imputeCatCol (imputeNumericCol (datetimeColumn c0)) :=
              imputeBoolCol_ok_values _ _ (by rw [hd3]; simp) hbc3
            rw [h43] at hex ⊢
            have hd2 : (imputeNumericCol (datetimeColumn c0)).dtype = .numeric := by
              rw [← imputeCatCol_dtype]; exact hd3
            rw [imputeCatCol_of_ne _ (by rw [hd2]; simp)] at hex ⊢
            have hd1 : (datetimeColumn c0).dtype = .numeric := by
              rw [← imputeNumericCol_dtype]; exact hd2
            have h10 : datetimeColumn c0 = c0 :=
              datetimeColumn_eq_self_of_dtype_ne c0 (by rw [hd1]; simp)
            rw [h10] at hex hd1 ⊢
            exact imputeNumericCol_no_missing_of_wt c0 hd1
              (inferColumn_ok_numeric_wt _ _ _ hic hd1) hex
          · -- Datetime columns
            intro hdt hex
            have hd4 : c4.dtype = .datetime := by
              rw [← imputeDatetimeCol_dtype c4]; exact hdt
            have hd3 : (imputeCatCol (imputeNumericCol (datetimeColumn c0))).dtype = .datetime := by
              rw [← imputeBoolCol_ok_dtype _ _ hbc3]; exact hd4
            have h43 : c4 = imputeCatCol (imputeNumericCol (datetimeColumn c0)) :=
              imputeBoolCol_ok_values _ _ (by rw [hd3]; simp) hbc3
            rw [h43] at hex ⊢
            have hd2 : (imputeNumericCol (datetimeColumn c0)).dtype = .datetime := by
              rw [← imputeCatCol_dtype]; exact hd3
            rw [imputeCatCol_of_ne _ (by rw [hd2]; simp)] at hex ⊢
            have hd1 : (datetimeColumn c0).dtype = .datetime := by
              rw [← imputeNumericCol_dtype]; exact hd2
            rw [imputeNumericCol_of_ne _ (by rw [hd1]; simp)] at hex ⊢
            have h0ne : c0.dtype ≠ .datetime := inferColumn_ok_dtype_ne_datetime _ _ _ hic
            exact imputeDatetimeCol_no_missing_of_wt _ hd1
              (datetimeColumn_values_wt c0 hd1 h0ne) hex

/-! ### Claim theorems -/

set_option maxRecDepth 4000

/-- C1: the claim says an empty input table (0 rows, any number of columns)
must not raise a division-by-zero during unique-ratio computation. The code
computes `df[col].nunique() / len(df)` for every object column, and on a
0-row table `len(df) = 0`, so `clean_data` raises `ZeroDivisionError` instead
of returning the empty table: evaluating the embedded `clean_data` on a 0-row
table with two (object-typed, as produced by the CSV reader) columns yields
the division-by-zero error. -/
theorem c1_empty_table_zero_division :
    clean_data ⟨[⟨"a", .object, []⟩, ⟨"b", .object, []⟩]⟩ =
      .error .zeroDivision := by decide

/-- C2 counterexample: in the table with one Numeric column holding `[1, NaN]`
the two rows are distinct, so deduplication keeps both, but median imputation
then rewrites the missing cell to 1, producing two rows that are exactly equal
across all columns — the normalized output violates the no-duplicate claim. -/
theorem c2_duplicates_reintroduced_by_imputation :
    clean_data ⟨[⟨"x", .numeric, [.num 1, .missing]⟩]⟩ =
      .ok ⟨[⟨"x", .numeric, [.num 1, .num 1]⟩]⟩ ∧
    ¬ (Df.rowsList ⟨[⟨"x", .numeric, [.num 1, .num 1]⟩]⟩).Nodup :=
  ⟨by decide, by decide⟩

/-- C2 (amended): immediately after the deduplication step no two rows of the
table are equal across all columns, for every input; operations that run
after deduplication (imputation) can reintroduce equal rows, so the invariant
holds of the deduplicated table, not of the final normalized output. -/
theorem c2_dedup_step_rows_nodup (df : Df) : ((dedupDf df).rowsList).Nodup :=
  dedupDf_rowsList_nodup df

/-- The idempotence counterexample: a numeric column plus a low-cardinality
text column. -/
def dfNumCatA : Df :=
  ⟨[⟨"x", .numeric, [.num 1, .num 2, .num 3, .num 4]⟩,
    ⟨"s", .object, [.str "a", .str "a", .str "a", .str "a"]⟩]⟩

/-- First normalization of `dfNumCatA`: the text column becomes Categorical. -/
def dfNumCatB : Df :=
  ⟨[⟨"x", .numeric, [.num 1, .num 2, .num 3, .num 4]⟩,
    ⟨"s", .category, [.str "a", .str "a", .str "a", .str "a"]⟩]⟩

/-- Second normalization of `dfNumCatB`: the Categorical column falls into the
numeric-coercion fallback (its dtype is neither `object` nor `bool`), every
value fails to parse, and the column degenerates to all-missing Numeric. -/
def dfNumCatC : Df :=
  ⟨[⟨"x", .numeric, [.num 1, .num 2, .num 3, .num 4]⟩,
    ⟨"s", .numeric, [.missing, .missing, .missing, .missing]⟩]⟩

/-- C3 counterexample: normalization is not idempotent. Normalizing
`dfNumCatA` yields `dfNumCatB` (with a Categorical column), but normalizing
`dfNumCatB` again does not return `dfNumCatB`: the second pass routes the
`category`-dtype column through `pd.to_numeric(errors='coerce')` and replaces
all its values with the missing-marker. -/
theorem c3_not_idempotent :
    clean_data dfNumCatA = .ok dfNumCatB ∧
    clean_data dfNumCatB = .ok dfNumCatC ∧
    dfNumCatC ≠ dfNumCatB :=
  ⟨by decide, by decide, by decide⟩

/-- C3 (amended): normalization is idempotent only on restricted inputs; it
holds for every well-formed table whose columns are all Numeric with purely
numeric values, whose names do not match the datetime keywords, and whose
rows are already duplicate-free — such a table is a fixed point of
`clean_data`. In general a second pass changes the table (see the
counterexample): a Categorical column is re-coerced to all-missing Numeric,
and rows made equal by imputation are removed. -/
theorem c3_idempotent_on_plain_numeric_tables (df : Df)
    (hwf : ∀ c ∈ df.cols, c.values.length = df.nRows)
    (hnum : ∀ c ∈ df.cols, c.dtype = Dtype.numeric)
    (hvals : ∀ c ∈ df.cols, ∀ v ∈ c.values, ∃ q, v = Cell.num q)
    (hname : ∀ c ∈ df.cols, nameMatchesDatetime c.name = false)
    (hnd : df.rowsList.Nodup) :
    clean_data df = .ok df :=
  clean_data_fixed_point df hwf hnum hvals hname hnd

/-- Witness for C3 (amended) at a concrete two-row numeric table. -/
theorem c3_idempotent_witness :
    clean_data ⟨[⟨"x", .numeric, [.num 1, .num 2]⟩]⟩ =
      .ok ⟨[⟨"x", .numeric, [.num 1, .num 2]⟩]⟩ :=
  c3_idempotent_on_plain_numeric_tables ⟨[⟨"x", .numeric, [.num 1, .num 2]⟩]⟩
    (by decide) (by decide)
    (by
      intro c hc v hv
      rcases List.mem_singleton.mp hc with rfl
      rcases List.mem_cons.mp hv with rfl | hv
      · exact ⟨1, rfl⟩
      · rcases List.mem_cons.mp hv with rfl | hv
        · exact ⟨2, rfl⟩
        · simp at hv)
    (by decide) (by decide)

/-- C4: the claim says missing cells of a Categorical column are replaced by
the literal string `"Unknown"`. The code runs `astype(str)` before
`fillna("Unknown")`; `astype(str)` renders the missing-marker as the string
`"nan"`, so the `fillna` finds nothing to fill and the missing cell surfaces
as `"nan"`, not `"Unknown"` (the column does remain Categorical). -/
theorem c4_categorical_missing_becomes_nan :
    clean_data ⟨[⟨"x", .numeric, [.num 1, .num 2, .num 3, .num 4]⟩,
                 ⟨"s", .object, [.str "a", .str "a", .str "a", .missing]⟩]⟩ =
      .ok ⟨[⟨"x", .numeric, [.num 1, .num 2, .num 3, .num 4]⟩,
            ⟨"s", .category, [.str "a", .str "a", .str "a", .str "nan"]⟩]⟩ ∧
    ("nan" : String) ≠ "Unknown" :=
  ⟨by decide, by decide⟩

/-- C5 counterexample: the claim says a statistic-requiring column with zero
non-missing values makes normalization fail with an `ImputationError`. The
code has no such error: on a table whose only (Numeric) column is entirely
missing, `clean_data` returns successfully and the missing value survives
(the median of an empty selection is itself missing and `fillna` is a
no-op). -/
theorem c5_all_missing_column_no_error :
    clean_data ⟨[⟨"x", .numeric, [.missing]⟩]⟩ =
      .ok ⟨[⟨"x", .numeric, [.missing]⟩]⟩ := by decide

/-- C5 (amended): when the imputation statistic is undefined (zero
non-missing values) normalization does not raise any `ImputationError`:
a Numeric or Datetime column is silently left unchanged, missing-markers
included; only the Boolean mode lookup `mode()[0]` fails, with a raw
`KeyError`, and only when the column is empty (zero rows). -/
theorem c5_undefined_statistic_behaviour (c : Col) :
    (c.dtype = .numeric → (∀ v ∈ c.values, v = Cell.missing) →
      imputeNumericCol c = c) ∧
    (c.dtype = .datetime → (∀ v ∈ c.values, v = Cell.missing) →
      imputeDatetimeCol c = c) ∧
    (c.dtype = .boolDT → c.values = [] → imputeBoolCol c = .error .keyError) :=
  ⟨imputeNumericCol_all_missing c, imputeDatetimeCol_all_missing c, imputeBoolCol_empty c⟩

/-- Witness for C5 (amended) at concrete all-missing and empty columns. -/
theorem c5_undefined_statistic_witness :
    imputeNumericCol ⟨"x", .numeric, [.missing]⟩ = ⟨"x", .numeric, [.missing]⟩ ∧
    imputeDatetimeCol ⟨"d", .datetime, [.missing]⟩ = ⟨"d", .datetime, [.missing]⟩ ∧
    imputeBoolCol ⟨"b", .boolDT, []⟩ = .error .keyError :=
  ⟨(c5_undefined_statistic_behaviour ⟨"x", .numeric, [.missing]⟩).1 rfl (by decide),
   (c5_undefined_statistic_behaviour ⟨"d", .datetime, [.missing]⟩).2.1 rfl (by decide),
   (c5_undefined_statistic_behaviour ⟨"b", .boolDT, []⟩).2.2 rfl rfl⟩

/-- C6: per-column type inference is a mutually exclusive three-way branch on
the raw storage dtype, evaluated in order. A textual (`object`) column is
classified Categorical exactly when its unique ratio is below 0.3 and is
otherwise left as untyped Text with its values uncoerced; a `bool` column is
kept as-is; every other column falls through to numeric coercion, where a
string that parses becomes that number and one that fails to parse becomes
the missing-marker instead of raising. The three guards are decided by the
single dtype, so no column is tested against more than one branch. -/
theorem c6_inference_three_way_branch (n : Nat) (c : Col) :
    (c.dtype = .object → n ≠ 0 →
      ((ratDiv (ratOfInt (Int.ofNat (uniqueCount c.values)))
            (ratOfInt (Int.ofNat n)) < mkRat 3 10 →
          inferColumn n c = .ok { c with dtype := .category }) ∧
        (¬ ratDiv (ratOfInt (Int.ofNat (uniqueCount c.values)))
            (ratOfInt (Int.ofNat n)) < mkRat 3 10 →
          inferColumn n c = .ok c))) ∧
    (c.dtype = .boolDT → inferColumn n c = .ok c) ∧
    (c.dtype ≠ .object → c.dtype ≠ .boolDT →
      inferColumn n c =
        .ok { c with dtype := .numeric, values := c.values.map coerceNumeric }) ∧
    (∀ s, parseNum s = none → coerceNumeric (Cell.str s) = Cell.missing) ∧
    (∀ s q, parseNum s = some q → coerceNumeric (Cell.str s) = Cell.num q) := by
  obtain ⟨nm, dt, vals⟩ := c
  refine ⟨?_, ?_, ?_, ?_, ?_⟩
  · intro h1 h2
    simp only at h1
    subst h1
    constructor
    · intro hr
      simp only [inferColumn]
      rw [if_neg h2, if_pos hr]
    · intro hr
      simp only [inferColumn]
      rw [if_neg h2, if_neg hr]
  · intro h1
    simp only at h1
    subst h1
    rfl
  · intro h1 h2
    simp only at h1 h2
    cases dt with
    | object => exact absurd rfl h1
    | boolDT => exact absurd rfl h2
    | numeric => rfl
    | category => rfl
    | datetime => rfl
  · intro s hs
    simp only [coerceNumeric, hs]
  · intro s q hs
    simp only [coerceNumeric, hs]

/-- Witness for C6 at concrete columns: a low-cardinality text column
becomes Categorical, a bool column is untouched, a numeric-dtype column is
coerced with unparseable strings going to missing. -/
theorem c6_inference_witness :
    inferColumn 10 ⟨"status", .object, [.str "active", .str "inactive"]⟩ =
      .ok ⟨"status", .category, [.str "active", .str "inactive"]⟩ ∧
    inferColumn 3 ⟨"flag", .boolDT, [.bool true, .bool false]⟩ =
      .ok ⟨"flag", .boolDT, [.bool true, .bool false]⟩ ∧
    inferColumn 2 ⟨"m", .numeric, [.str "12", .str "oops"]⟩ =
      .ok ⟨"m", .numeric, [.num 12, .missing]⟩ :=
  ⟨((c6_inference_three_way_branch 10
        ⟨"status", .object, [.str "active", .str "inactive"]⟩).1 rfl
        (by decide)).1 (by decide),
   (c6_inference_three_way_branch 3
        ⟨"flag", .boolDT, [.bool true, .bool false]⟩).2.1 rfl,
   ((c6_inference_three_way_branch 2
        ⟨"m", .numeric, [.str "12", .str "oops"]⟩).2.2.1 (by decide) (by decide)).trans
      (by decide)⟩

/-- C7: the datetime pass. A column whose lower-cased name contains one of
`date`, `time`, `year`, `day`, `month` is re-coerced to Datetime whatever its
prior classification, with each unparseable value becoming the
missing-marker; the one fatally failing dtype (`bool`, where `pd.to_datetime`
raises a `TypeError` for the whole column) is silently left untouched by the
`try/except: pass`; an unmatched name is untouched; and datetime imputation
then fills the remaining missing cells with the column's minimum non-missing
timestamp. -/
theorem c7_datetime_pass (c : Col) :
    (nameMatchesDatetime c.name = true → c.dtype ≠ .boolDT →
      datetimeColumn c =
        { c with dtype := .datetime, values := c.values.map parseDatetime }) ∧
    (∀ s, parseDateStr s = none → parseDatetime (Cell.str s) = Cell.missing) ∧
    (nameMatchesDatetime c.name = true → c.dtype = .boolDT → datetimeColumn c = c) ∧
    (nameMatchesDatetime c.name = false → datetimeColumn c = c) ∧
    (∀ t, c.dtype = .datetime → minTS (c.values.filterMap cellTS) = some t →
      imputeDatetimeCol c =
        { c with values := c.values.map (fillCell (Cell.timestamp t)) }) := by
  refine ⟨?_, ?_, ?_, ?_, ?_⟩
  · intro hm hb
    rw [datetimeColumn, if_pos hm, if_neg hb]
  · intro s hs
    simp only [parseDatetime, hs]
  · intro hm hb
    rw [datetimeColumn, if_pos hm, if_pos hb]
  · intro hm
    rw [datetimeColumn, hm]
    simp
  · intro t hdt hmin
    rw [imputeDatetimeCol, if_pos hdt, hmin]

/-- Witness for C7: the `Order_Date` column of Scenario 3 (numeric year
values re-coerced to Datetime by name match), an unparseable string becoming
missing, a bool column left untouched, and min-imputation of a datetime
column. -/
theorem c7_datetime_witness :
    datetimeColumn ⟨"Order_Date", .numeric, [.num (ratOfInt 2021), .num (ratOfInt 2022)]⟩ =
      ⟨"Order_Date", .datetime, [.timestamp 2021, .timestamp 2022]⟩ ∧
    parseDatetime (Cell.str "zzz") = Cell.missing ∧
    datetimeColumn ⟨"day_ok", .boolDT, [.bool true]⟩ = ⟨"day_ok", .boolDT, [.bool true]⟩ ∧
    imputeDatetimeCol ⟨"start_date", .datetime, [.timestamp 20200103, .missing, .timestamp 20200102]⟩ =
      ⟨"start_date", .datetime, [.timestamp 20200103, .timestamp 20200102, .timestamp 20200102]⟩ :=
  ⟨((c7_datetime_pass ⟨"Order_Date", .numeric,
        [.num (ratOfInt 2021), .num (ratOfInt 2022)]⟩).1 (by decide) (by decide)).trans
      (by decide),
   (c7_datetime_pass ⟨"Order_Date", .numeric, []⟩).2.1 "zzz" (by decide),
   (c7_datetime_pass ⟨"day_ok", .boolDT, [.bool true]⟩).2.2.1 (by decide) rfl,
   ((c7_datetime_pass ⟨"start_date", .datetime,
        [.timestamp 20200103, .missing, .timestamp 20200102]⟩).2.2.2.2 20200102 rfl
        (by decide)).trans (by decide)⟩

/-- C8: after a successful normalization no missing-marker remains in any
Numeric, Categorical, Boolean or Datetime column that has at least one
non-missing value: end to end over `clean_data`, a Categorical or Boolean
output column never retains a missing cell (string conversion, respectively
mode fill, eliminates them all), and a Numeric or Datetime output column with
at least one non-missing value retains none (median, respectively minimum,
imputation fills them); on Scenario 4's column `[1, 3, missing, 7]` the
missing cell becomes the median 3. -/
theorem c8_no_missing_after_imputation :
    (∀ df df', clean_data df = .ok df' → ∀ c' ∈ df'.cols,
      (c'.dtype = .category → Cell.missing ∉ c'.values) ∧
      (c'.dtype = .boolDT → Cell.missing ∉ c'.values) ∧
      (c'.dtype = .numeric → (∃ v ∈ c'.values, v ≠ Cell.missing) →
        Cell.missing ∉ c'.values) ∧
      (c'.dtype = .datetime → (∃ v ∈ c'.values, v ≠ Cell.missing) →
        Cell.missing ∉ c'.values)) ∧
    clean_data ⟨[⟨"v", .numeric, [.num 1, .num 3, .missing, .num 7]⟩]⟩ =
      .ok ⟨[⟨"v", .numeric, [.num 1, .num 3, .num 3, .num 7]⟩]⟩ :=
  ⟨clean_data_no_missing_master, by decide⟩

/-- Witness for C8: the end-to-end statement instantiated on two concrete
runs — the Scenario 4 numeric column and a Categorical column whose missing
cell became the string `"nan"`. -/
theorem c8_no_missing_witness :
    Cell.missing ∉ ([Cell.num 1, Cell.num 3, Cell.num 3, Cell.num 7] : List Cell) ∧
    Cell.missing ∉ ([Cell.str "a", Cell.str "a", Cell.str "a", Cell.str "nan"] : List Cell) := by
  constructor
  · exact (c8_no_missing_after_imputation.1
      ⟨[⟨"v", .numeric, [.num 1, .num 3, .missing, .num 7]⟩]⟩
      ⟨[⟨"v", .numeric, [.num 1, .num 3, .num 3, .num 7]⟩]⟩
      (by decide)
      ⟨"v", .numeric, [.num 1, .num 3, .num 3, .num 7]⟩
      (by decide)).2.2.1 rfl ⟨Cell.num 1, by decide, by decide⟩
  · exact (c8_no_missing_after_imputation.1
      ⟨[⟨"x", .numeric, [.num 1, .num 2, .num 3, .num 4]⟩,
        ⟨"s", .object, [.str "a", .str "a", .str "a", .missing]⟩]⟩
      ⟨[⟨"x", .numeric, [.num 1, .num 2, .num 3, .num 4]⟩,
        ⟨"s", .category, [.str "a", .str "a", .str "a", .str "nan"]⟩]⟩
      (by decide)
      ⟨"s", .category, [.str "a", .str "a", .str "a", .str "nan"]⟩
      (by decide)).1 rfl

/-- C9: the profiler summary is a total (pure) function of the table; its
sample always holds exactly `min(N, 3)` rows — bounded independently of the
table's row count — and on the empty table every count is zero and every list
(column groups and sample) is empty. -/
theorem c9_summary_bounded (df : Df) :
    (get_dataset_summary df).sampleRows.length = min df.nRows 3 ∧
    (df.cols = [] → get_dataset_summary df = ⟨0, 0, [], [], [], [], []⟩) := by
  constructor
  · show (df.rowsList.take 3).length = min df.nRows 3
    rw [List.length_take, Df.rowsList, List.length_map, List.length_range, Nat.min_comm]
  · intro h
    obtain ⟨cols⟩ := df
    simp only at h
    subst h
    rfl

/-- Witness for C9: a one-row table shows one sample row; the empty table
yields the all-empty summary. -/
theorem c9_summary_witness :
    (get_dataset_summary ⟨[⟨"x", .numeric, [.num 1]⟩]⟩).sampleRows.length = 1 ∧
    get_dataset_summary ⟨[]⟩ = ⟨0, 0, [], [], [], [], []⟩ :=
  ⟨(c9_summary_bounded ⟨[⟨"x", .numeric, [.num 1]⟩]⟩).1.trans (by decide),
   (c9_summary_bounded ⟨[]⟩).2 rfl⟩

/-- C10: `load_data` wraps parsing and cleaning in one `try/except Exception`
block: whenever the chosen parser or `clean_data` fails with any exception
`e`, the user sees the single message `f"Error loading file: {e}"` and the
function returns `None` — a cleaning-stage failure is reported exactly like a
load failure, and no normalized table is produced. -/
theorem c10_load_data_catches_everything (f : UploadedFile) (e : AppError)
    (h : (if hasCsvExt f.name then f.csvParse else f.excelParse).bind clean_data =
      .error e) :
    load_data (some f) = (none, some ("Error loading file: " ++ e.message)) := by
  simp only [load_data]
  rw [h]

/-- Witness for C10: a CSV file that parses to a 0-row object-column table;
`clean_data` raises the division-by-zero, and `load_data` reports it under
the load-failure message and returns no table. -/
theorem c10_load_data_witness :
    load_data (some ⟨"data.csv", .ok ⟨[⟨"a", .object, []⟩]⟩, .ok ⟨[]⟩⟩) =
      (none, some "Error loading file: division by zero") :=
  (c10_load_data_catches_everything
      ⟨"data.csv", .ok ⟨[⟨"a", .object, []⟩]⟩, .ok ⟨[]⟩⟩ .zeroDivision (by decide)).trans
    (by decide)

end LLMKpiDash
